import Mathlib

/-!
Shallow embedding of the SentimentDesk frontend core:
`src/frontend/src/App.tsx` and `src/frontend/src/lib/api/index.ts`.

Conventions of the embedding:
* JavaScript numbers are modelled as rationals.
* JavaScript `null` / `undefined` are both modelled as `Option.none`
  (the source never distinguishes the two for the fields modelled here).
* Fallible parsing returns `Option`.
-/

/-- Truncation toward zero of a rational, as performed by the
JavaScript `Math.trunc` builtin. -/
def jsTrunc (q : ℚ) : ℤ := q.num.tdiv (q.den : ℤ)

/-- Whitespace test of the JavaScript `trim` builtin (the common ASCII
whitespace characters; the exotic Unicode space code points are not used by
the repository). -/
def jsWhitespace (c : Char) : Bool :=
  c = ' ' || c = '\t' || c = '\n' || c = '\r' || c = '\x0b' || c = '\x0c'

/-- Model of the JavaScript `String.prototype.trim` builtin: drop leading and
trailing whitespace. Defined over the character list so that it reduces
inside the kernel. -/
def jsTrim (s : String) : String :=
  ⟨((s.data.dropWhile jsWhitespace).reverse.dropWhile jsWhitespace).reverse⟩

/-- Uppercase one character, as `toUpperCase` does on the ASCII range. -/
def jsUpperChar (c : Char) : Char :=
  if 'a' ≤ c && c ≤ 'z' then Char.ofNat (c.toNat - 32) else c

/-- Model of the JavaScript `String.prototype.toUpperCase` builtin on the
ASCII range. -/
def jsToUpper (s : String) : String := ⟨s.data.map jsUpperChar⟩

/-- Decimal digit test, used by the model of the `Number` coercion. -/
def isDigitChar (c : Char) : Bool := '0' ≤ c && c ≤ '9'

/-- Numeric value of a decimal digit character. -/
def digitVal (c : Char) : Nat := c.toNat - '0'.toNat

/-- Value of a run of decimal digits read in base 10. -/
def natOfDigits (ds : List Char) : Nat := ds.foldl (fun n c => 10 * n + digitVal c) 0

/-- Apply an optionally signed decimal exponent part (the characters after
`e` or `E`) to a mantissa. Fails when the exponent digits are missing or
when trailing characters remain. -/
def applySignedExponent (cs : List Char) (mant : ℚ) : Option ℚ :=
  let signed : ℤ × List Char :=
    match cs with
    | '+' :: r => (1, r)
    | '-' :: r => (-1, r)
    | r => (1, r)
  let expDigits := signed.2.takeWhile isDigitChar
  let rest := signed.2.dropWhile isDigitChar
  if expDigits.isEmpty || !rest.isEmpty then none
  else some (mant * (10 : ℚ) ^ (signed.1 * (natOfDigits expDigits : ℤ)))

/-- Apply an optional exponent marker (`e` / `E`) and exponent to a mantissa;
the input must otherwise be exhausted. -/
def applyExponent (cs : List Char) (mant : ℚ) : Option ℚ :=
  match cs with
  | [] => some mant
  | 'e' :: rest => applySignedExponent rest mant
  | 'E' :: rest => applySignedExponent rest mant
  | _ => none

/-- Unsigned decimal literal: `digits`, `digits.digits`, `digits.`, `.digits`,
each optionally followed by an exponent part. Anything else is rejected. -/
def parseDecimalCore (cs : List Char) : Option ℚ :=
  let intDigits := cs.takeWhile isDigitChar
  let rest := cs.dropWhile isDigitChar
  match rest with
  | [] => if intDigits.isEmpty then none else some ((natOfDigits intDigits : ℚ))
  | '.' :: rest2 =>
      let fracDigits := rest2.takeWhile isDigitChar
      let rest3 := rest2.dropWhile isDigitChar
      if intDigits.isEmpty && fracDigits.isEmpty then none
      else
        applyExponent rest3
          ((natOfDigits intDigits : ℚ) +
            (natOfDigits fracDigits : ℚ) / (10 : ℚ) ^ fracDigits.length)
  | _ => if intDigits.isEmpty then none else applyExponent rest ((natOfDigits intDigits : ℚ))

/-- Model of the JavaScript `Number(s)` coercion restricted to finite decimal
results, returning `none` exactly when the subsequent `Number.isFinite` test of
the source would fail: strings that coerce to `NaN` or to an infinity
(such as `"Infinity"`) yield `none`. The decimal fragment of the coercion
(optional sign, digits, decimal point, exponent) is modelled; the non-decimal
radix prefixes are treated as non-numeric. `Number("") = 0` is modelled for
completeness although every caller in the source guards the empty string. -/
def jsNumber (s : String) : Option ℚ :=
  match s.data with
  | [] => some 0
  | '+' :: rest => parseDecimalCore rest
  | '-' :: rest => (parseDecimalCore rest).map (fun q => -q)
  | cs => parseDecimalCore cs

/-- Embedding of `parseNumber` (App.tsx): trim, reject the empty string,
then coerce with `Number` and keep only finite results. -/
def parseNumber (value : String) : Option ℚ :=
  let trimmed := jsTrim value
  if trimmed = "" then none
  else jsNumber trimmed

/-- Embedding of `parseInteger` (App.tsx): `parseNumber` followed by
`Math.trunc` on success. -/
def parseInteger (value : String) : Option ℤ :=
  (parseNumber value).map jsTrunc

/-- Embedding of the `EvidenceMatch` shape (lib/api/index.ts). -/
structure EvidenceMatch where
  field : String
  rule_id : String
  pattern : String
  snippet : String
deriving DecidableEq

/-- Embedding of the `RatioValue` shape (lib/api/index.ts): both fields are
nullable; `value = none` with `raw` present is the
mentioned-but-unparseable state the specification describes. -/
structure RatioValue where
  value : Option ℚ
  raw : Option String
deriving DecidableEq

/-- Embedding of the `OvervaluedStock` shape (lib/api/index.ts). The evidence
list is omitted by `buildLayerInput`, so it defaults to the empty list. -/
structure OvervaluedStock where
  rank : ℤ
  name : String
  ticker : Option String
  pe_ratio : Option RatioValue
  pb_ratio : Option RatioValue
  pcf_ratio : Option RatioValue
  evidence : List EvidenceMatch := []
deriving DecidableEq

/-- Embedding of the `StockTickerOverride` shape (lib/api/index.ts). -/
structure StockTickerOverride where
  name : String
  ticker : String
deriving DecidableEq

/-- Embedding of the `CapexItem` shape (lib/api/index.ts). -/
structure CapexItem where
  company : String
  year : Option ℤ
  amount_usd_billion : Option ℚ
  ai_share_percent : Option ℚ
  evidence : List EvidenceMatch := []
deriving DecidableEq

/-- Embedding of the `RiskCluster` shape (lib/api/index.ts). -/
structure RiskCluster where
  label : String
  count : ℤ
  evidence : List EvidenceMatch := []
deriving DecidableEq

/-- Direction of an index move. -/
inductive MoveDirection where
  | up
  | down
  | flat
deriving DecidableEq

/-- Embedding of the `IndexMove` shape (lib/api/index.ts). -/
structure IndexMove where
  index : String
  percent_change : Option ℚ
  points_change : Option ℚ
  direction : Option MoveDirection
  evidence : List EvidenceMatch := []
deriving DecidableEq

/-- Valuation layer (Layer A) of the `LayerInput` shape. -/
structure ValuationLayer where
  overvalued_stocks : List OvervaluedStock
deriving DecidableEq

/-- Capex layer (Layer B) of the `LayerInput` shape. -/
structure CapexLayer where
  capex_items : List CapexItem
  capex_total_usd_billion : Option ℚ
  ai_share_percent : Option ℚ
deriving DecidableEq

/-- Risk layer (Layer C) of the `LayerInput` shape. -/
structure RiskLayer where
  risk_clusters : List RiskCluster
deriving DecidableEq

/-- Market-context layer (Layer D) of the `LayerInput` shape. -/
structure MarketContextLayer where
  week_label : Option String
  index_moves : List IndexMove
deriving DecidableEq

/-- Embedding of the `LayerInput` shape (lib/api/index.ts). -/
structure LayerInput where
  valuation : ValuationLayer
  capex : CapexLayer
  risk : RiskLayer
  market_context : MarketContextLayer
deriving DecidableEq

/-- Embedding of the `rule_trace` entry shape inside `ScoreResult`
(lib/api/index.ts). -/
structure RuleTraceEntry where
  rule_id : String
  field : String
  value : String
  detail : String
deriving DecidableEq

/-- Embedding of the `ScoreResult` shape (lib/api/index.ts). -/
structure ScoreResult where
  valuation_score : ℚ
  capex_score : ℚ
  risk_score : ℚ
  composite_score : ℚ
  rule_trace : List RuleTraceEntry
deriving DecidableEq

/-- Severity level of a single validation issue. -/
inductive IssueLevel where
  | warn
  | fail
deriving DecidableEq

/-- Embedding of the `ValidationIssue` shape (lib/api/index.ts). -/
structure ValidationIssue where
  field : String
  level : IssueLevel
  message : String
deriving DecidableEq

/-- Overall validation status. -/
inductive ValidationStatus where
  | ok
  | warn
  | fail
deriving DecidableEq

/-- Embedding of the `ValidationResult` shape (lib/api/index.ts). -/
structure ValidationResult where
  status : ValidationStatus
  issues : List ValidationIssue
deriving DecidableEq

/-- Embedding of the `ProviderJobStatus` union (lib/api/index.ts). -/
inductive ProviderJobStatus where
  | queued
  | running
  | finished
  | failed
deriving DecidableEq

/-- Embedding of `ManualStockEntry` (App.tsx): the raw text of one
manual-entry stock row. -/
structure ManualStockEntry where
  rank : ℤ
  name : String
  ticker : String
  pe_ratio : String
  pb_ratio : String
  pcf_ratio : String
deriving DecidableEq

/-- Embedding of `ManualCapexEntry` (App.tsx). -/
structure ManualCapexEntry where
  company : String
  year : String
  amount_usd_billion : String
  ai_share_percent : String
deriving DecidableEq

/-- Embedding of `ManualRiskEntry` (App.tsx). -/
structure ManualRiskEntry where
  label : String
  count : String
deriving DecidableEq

/-- Valuation part of the manual-entry state. -/
structure ManualValuationState where
  overvalued_stocks : List ManualStockEntry
deriving DecidableEq

/-- Capex part of the manual-entry state. -/
structure ManualCapexState where
  capex_items : List ManualCapexEntry
  capex_total_usd_billion : String
  ai_share_percent : String
deriving DecidableEq

/-- Risk part of the manual-entry state. -/
structure ManualRiskState where
  risk_clusters : List ManualRiskEntry
deriving DecidableEq

/-- Embedding of `ManualLayersState` (App.tsx). -/
structure ManualLayersState where
  valuation : ManualValuationState
  capex : ManualCapexState
  risk : ManualRiskState
deriving DecidableEq

/-- Embedding of `createManualLayers` (App.tsx): five fixed stock rows with
ranks 1..5 and empty text fields, no capex items, no risk clusters. -/
def createManualLayers : ManualLayersState :=
  { valuation :=
      { overvalued_stocks :=
          (List.range 5).map (fun index =>
            { rank := (index : ℤ) + 1
              name := ""
              ticker := ""
              pe_ratio := ""
              pb_ratio := ""
              pcf_ratio := "" }) }
    capex :=
      { capex_items := []
        capex_total_usd_billion := ""
        ai_share_percent := "" }
    risk := { risk_clusters := [] } }

/-- The five editable text fields of a manual stock row; `rank` is not
editable through `updateManualStock`. -/
inductive StockField where
  | name
  | ticker
  | pe_ratio
  | pb_ratio
  | pcf_ratio
deriving DecidableEq

/-- Set one editable field of a manual stock row. -/
def setStockField (s : ManualStockEntry) : StockField → String → ManualStockEntry
  | StockField.name, v => { s with name := v }
  | StockField.ticker, v => { s with ticker := v }
  | StockField.pe_ratio, v => { s with pe_ratio := v }
  | StockField.pb_ratio, v => { s with pb_ratio := v }
  | StockField.pcf_ratio, v => { s with pcf_ratio := v }

/-- Replace the row at `index` with its field-updated copy, as the array
copy-and-assign in `updateManualStock` does. The UI only issues indices of
existing rows (they come from mapping over the five rows); an out-of-range
index leaves the list unchanged here. -/
def updateStockAt : List ManualStockEntry → Nat → StockField → String → List ManualStockEntry
  | [], _, _, _ => []
  | s :: rest, 0, f, v => setStockField s f v :: rest
  | s :: rest, Nat.succ n, f, v => s :: updateStockAt rest n f v

/-- Embedding of `updateManualStock` (App.tsx). -/
def updateManualStock (index : Nat) (field : StockField) (value : String)
    (prev : ManualLayersState) : ManualLayersState :=
  { prev with
    valuation :=
      { overvalued_stocks := updateStockAt prev.valuation.overvalued_stocks index field value } }

/-- A sequence of stock edits, applied left to right. -/
def applyStockEdits (edits : List (Nat × StockField × String))
    (st : ManualLayersState) : ManualLayersState :=
  edits.foldl (fun acc e => updateManualStock e.1 e.2.1 e.2.2 acc) st

/-- Embedding of `toRatioValue` (App.tsx): an unparseable input produces an
absent field (`none`), a parseable one produces a `RatioValue` whose only
present field is `value`. -/
def toRatioValue (value : String) : Option RatioValue :=
  match parseNumber value with
  | none => none
  | some numberValue => some { value := some numberValue, raw := none }

/-- Embedding of `buildLayerInput` (App.tsx): assemble the `LayerInput`
payload from the manual-entry state. -/
def buildLayerInput (manual : ManualLayersState) : LayerInput :=
  { valuation :=
      { overvalued_stocks :=
          manual.valuation.overvalued_stocks.map (fun stock =>
            { rank := stock.rank
              name := jsTrim stock.name
              ticker :=
                if jsTrim stock.ticker ≠ "" then some (jsToUpper (jsTrim stock.ticker)) else none
              pe_ratio := toRatioValue stock.pe_ratio
              pb_ratio := toRatioValue stock.pb_ratio
              pcf_ratio := toRatioValue stock.pcf_ratio }) }
    capex :=
      { capex_items :=
          (manual.capex.capex_items.map (fun item =>
            { company := jsTrim item.company
              year := parseInteger item.year
              amount_usd_billion := parseNumber item.amount_usd_billion
              ai_share_percent := parseNumber item.ai_share_percent : CapexItem })).filter
            (fun item => item.company ≠ "")
        capex_total_usd_billion := parseNumber manual.capex.capex_total_usd_billion
        ai_share_percent := parseNumber manual.capex.ai_share_percent }
    risk :=
      { risk_clusters :=
          ((manual.risk.risk_clusters.map (fun cluster =>
              (jsTrim cluster.label, parseInteger cluster.count))).filter
            (fun p => p.1 ≠ "" && p.2.isSome)).map (fun p =>
            { label := p.1, count := p.2.getD 0 }) }
    market_context := { week_label := none, index_moves := [] } }

/-- Embedding of `buildTickerOverrides` (App.tsx): the override map entries,
tickers trimmed, entries with empty trimmed tickers dropped. -/
def buildTickerOverrides (tickerOverrides : List (String × String)) : List StockTickerOverride :=
  (tickerOverrides.map (fun p => { name := p.1, ticker := jsTrim p.2 : StockTickerOverride })).filter
    (fun entry => entry.ticker.length > 0)

/-- Untyped JSON value, the model of the `unknown` data handled by
`toApiError` (lib/api/index.ts). -/
inductive Js where
  | jnull
  | jbool (b : Bool)
  | jnum (q : ℚ)
  | jstr (s : String)
  | jarr (xs : List Js)
  | jobj (fields : List (String × Js))

/-- JavaScript truthiness of a JSON value. -/
def Js.truthy : Js → Bool
  | Js.jnull => false
  | Js.jbool b => b
  | Js.jnum q => decide (q ≠ 0)
  | Js.jstr s => decide (s ≠ "")
  | Js.jarr _ => true
  | Js.jobj _ => true

/-- Whether `typeof x` is the string `object`: objects, arrays and `null`. -/
def Js.isObjectType : Js → Bool
  | Js.jobj _ => true
  | Js.jarr _ => true
  | Js.jnull => true
  | _ => false

/-- Property lookup on an object value; anything else has no readable
properties that the error-parsing code consults. -/
def Js.getField : Js → String → Option Js
  | Js.jobj fields, key => (fields.find? (fun p => p.1 == key)).map (fun p => p.2)
  | _, _ => none

/-- The `in` operator test used for `detail`. -/
def Js.hasField (v : Js) (key : String) : Bool := (v.getField key).isSome

/-- Embedding of the `ApiError` class fields (lib/api/index.ts); the
`validation` payload is kept untyped exactly as the unchecked cast does. -/
structure ApiError where
  message : String
  status : Nat
  validation : Option Js

/-- Embedding of the `applyDetail` closure inside `toApiError`
(lib/api/index.ts): on a truthy object, take a non-blank string `message`
property and a truthy `validation` property. -/
def applyDetail (value : Js) (message : String) (validation : Option Js) : String × Option Js :=
  if value.truthy && value.isObjectType then
    let m :=
      match value.getField "message" with
      | some (Js.jstr s) => if jsTrim s ≠ "" then s else message
      | _ => message
    let v :=
      match value.getField "validation" with
      | some w => if w.truthy then some w else validation
      | _ => validation
    (m, v)
  else (message, validation)

/-- Embedding of the JSON branch of `toApiError` (lib/api/index.ts): compute
the message and validation payload from the decoded body. -/
def jsonErrorMessage (data : Js) : String × Option Js :=
  let detail : Js :=
    if data.truthy && data.isObjectType && data.hasField "detail" then
      (data.getField "detail").getD Js.jnull
    else data
  let first : String × Option Js :=
    match detail with
    | Js.jstr s => (s, none)
    | Js.jarr _ => ("Request validation failed.", none)
    | _ => applyDetail detail "Request failed." none
  if data.truthy && data.isObjectType then
    let m :=
      match data.getField "message" with
      | some (Js.jstr s) => if jsTrim s ≠ "" then s else first.1
      | _ => first.1
    let v :=
      match first.2 with
      | some w => some w
      | none =>
          match data.getField "validation" with
          | some w => if w.truthy then some w else none
          | _ => none
    (m, v)
  else first

/-- Whether the first character list occurs at the start of the second. -/
def startsWithChars : List Char → List Char → Bool
  | [], _ => true
  | _ :: _, [] => false
  | a :: as, b :: bs => a = b && startsWithChars as bs

/-- Whether the first character list occurs anywhere inside the second;
the model of `String.prototype.includes`. -/
def containsChars (needle : List Char) : List Char → Bool
  | [] => startsWithChars needle []
  | c :: cs => startsWithChars needle (c :: cs) || containsChars needle cs

/-- Model of `contentType.includes` on strings. -/
def jsIncludes (hay needle : String) : Bool := containsChars needle.data hay.data

/-- Embedding of `toApiError` (lib/api/index.ts). The response is passed as
its observable pieces: HTTP status, content-type header (empty when absent),
the decoded JSON body (consulted only on a JSON content-type) and the raw
body text (consulted otherwise). -/
def toApiError (status : Nat) (contentType : String) (jsonData : Js) (textBody : String) :
    ApiError :=
  if jsIncludes contentType "application/json" then
    let mv := jsonErrorMessage jsonData
    { message := mv.1, status := status, validation := mv.2 }
  else
    { message := if textBody = "" then "Request failed." else textBody
      status := status
      validation := none }

/-- Embedding of the `MarketDataSnapshot` shape (lib/api/index.ts); the
payload record is kept untyped. -/
structure MarketDataSnapshot where
  provider : String
  symbol : String
  payload : List (String × Js)
  status : String

/-- Embedding of the `ParseResult` shape (lib/api/index.ts): the successful
pipeline response. `layers`, `scores` and `validation` are required fields of
the type; only the provider-job fields are optional. -/
structure ParseResult where
  raw_text : String
  cleaned_text : String
  layers : LayerInput
  provider_snapshots : List MarketDataSnapshot
  scores : ScoreResult
  evidence : List EvidenceMatch
  validation : ValidationResult
  provider_job_id : Option String
  provider_job_status : Option ProviderJobStatus

/-- The JavaScript value a call site can pass for the `tickerOverrides`
parameter of `parseReport`. The declared TypeScript type is
`StockTickerOverride[] | undefined`, but `App.tsx` passes the report-week
string in this position, so the embedding keeps the union of the values that
actually flow here. -/
inductive OverridesArg where
  | undef
  | str (s : String)
  | list (l : List StockTickerOverride)
deriving DecidableEq

/-- Evaluation of the guard `tickerOverrides && tickerOverrides.length`:
`undefined` is falsy; a string is kept when it is non-empty (truthy with a
non-zero `length`); an array is kept when non-empty. -/
def OverridesArg.truthyLength : OverridesArg → Bool
  | OverridesArg.undef => false
  | OverridesArg.str s => decide (s ≠ "")
  | OverridesArg.list l => !l.isEmpty

/-- The JSON body `parseReport` posts to `/api/parse` (lib/api/index.ts):
`raw_text` always, `ticker_overrides` only when the guard accepts the
argument. There is no week field in this payload shape. -/
structure ParsePayload where
  raw_text : String
  ticker_overrides : Option OverridesArg
deriving DecidableEq

/-- Embedding of the payload construction in `parseReport`
(lib/api/index.ts, two declared parameters). -/
def parseReportPayload (rawText : String) (tickerOverrides : OverridesArg) : ParsePayload :=
  { raw_text := rawText
    ticker_overrides :=
      if tickerOverrides.truthyLength then some tickerOverrides else none }

/-- The JavaScript value a call site can pass for the `layers` parameter of
`submitManualReport`; `App.tsx` passes the report-week string here. -/
inductive LayersArg where
  | str (s : String)
  | layers (l : LayerInput)

/-- The JSON body `submitManualReport` posts to `/api/report/manual`
(lib/api/index.ts): `raw_text` and `layers`, nothing else. -/
structure ManualPayload where
  raw_text : String
  layers : LayersArg

/-- Embedding of the payload construction in `submitManualReport`
(lib/api/index.ts, two declared parameters). -/
def submitManualPayload (rawText : String) (layers : LayersArg) : ManualPayload :=
  { raw_text := rawText, layers := layers }

/-- Embedding of `handleParse` (App.tsx). After the three guards, the source
calls `parseReport(rawText, reportWeek, undefined, allowOverwrite)`,
but `parseReport` declares only `(rawText, tickerOverrides?)`; under
JavaScript call semantics `reportWeek` binds to `tickerOverrides` and the two
extra arguments are discarded. -/
def handleParse (rawText reportWeek : String) (weekConfirmed allowOverwrite : Bool) :
    Option ParsePayload :=
  if jsTrim rawText = "" then none
  else if reportWeek = "" then none
  else if !weekConfirmed then none
  else
    let _ := allowOverwrite
    some (parseReportPayload rawText (OverridesArg.str reportWeek))

/-- Embedding of `handleApplyTickers` (App.tsx). The built override list is
passed as the third argument of `parseReport`, which has no third parameter,
so it is discarded; `reportWeek` again binds to `tickerOverrides`. -/
def handleApplyTickers (rawText reportWeek : String)
    (tickerOverrides : List (String × String)) (weekConfirmed allowOverwrite : Bool) :
    Option ParsePayload :=
  if jsTrim rawText = "" then none
  else if reportWeek = "" then none
  else if !weekConfirmed then none
  else
    let overrides := buildTickerOverrides tickerOverrides
    if overrides.isEmpty then none
    else
      let _ := allowOverwrite
      some (parseReportPayload rawText (OverridesArg.str reportWeek))

/-- Embedding of `handleManualSubmit` (App.tsx). The layers built with
`buildLayerInput` are passed as the third argument of `submitManualReport`,
which declares only `(rawText, layers)`; `reportWeek` binds to `layers` and
the built layers and `allowOverwrite` are discarded. -/
def handleManualSubmit (rawText reportWeek : String) (manualLayers : ManualLayersState)
    (weekConfirmed allowOverwrite : Bool) : Option ManualPayload :=
  if jsTrim rawText = "" then none
  else if reportWeek = "" then none
  else if !weekConfirmed then none
  else
    let _layers := buildLayerInput manualLayers
    let _ := allowOverwrite
    some (submitManualPayload rawText (LayersArg.str reportWeek))

/-- Observable pieces of the HTTP response a pipeline request receives:
`ok`, `status`, the header and bodies consulted by `toApiError`, and the
decoded success body. The `response.json() as Promise<ParseResult>` cast of
the source performs no runtime validation; the typed boundary is modelled by
the `parsedBody` field. -/
structure ParseHttpResponse where
  ok : Bool
  status : Nat
  contentType : String
  jsonData : Js
  textBody : String
  parsedBody : ParseResult

/-- Outcome of `parseReport` (lib/api/index.ts) for a completed HTTP
exchange: the decoded `ParseResult` on success, an `ApiError` otherwise. -/
def parseReportOutcome (resp : ParseHttpResponse) : Except ApiError ParseResult :=
  if resp.ok then Except.ok resp.parsedBody
  else Except.error (toApiError resp.status resp.contentType resp.jsonData resp.textBody)

/-- Outcome of `submitManualReport` (lib/api/index.ts); the error path is
identical to `parseReport`. -/
def submitManualReportOutcome (resp : ParseHttpResponse) : Except ApiError ParseResult :=
  if resp.ok then Except.ok resp.parsedBody
  else Except.error (toApiError resp.status resp.contentType resp.jsonData resp.textBody)

/-- Modelled from the spec: the backend Ticker Resolver (spec 4.3) is not
under src/ (only its frontend callers are), so it is modelled from the
specification words: for each Layer A stock whose name exactly matches an
override key, replace the ticker with the override value uppercased and
trimmed; overrides with empty or whitespace-only ticker values are ignored;
no stock is added or removed. -/
def resolve (doc : LayerInput) (overrides : List StockTickerOverride) : LayerInput :=
  { doc with
    valuation :=
      { overvalued_stocks :=
          doc.valuation.overvalued_stocks.map (fun stock =>
            match overrides.find? (fun o => o.name == stock.name) with
            | some o =>
                if jsTrim o.ticker ≠ "" then
                  { stock with ticker := some (jsToUpper (jsTrim o.ticker)) }
                else stock
            | none => stock) } }

/-- Weight configuration of the scoring engine (spec 4.5); the defaults are
0.4 / 0.4 / 0.2. -/
structure ScoringWeights where
  valuation : ℚ
  capex : ℚ
  risk : ℚ
deriving DecidableEq

/-- Default composite weights from spec 4.5. -/
def defaultWeights : ScoringWeights := { valuation := 2/5, capex := 2/5, risk := 1/5 }

/-- One declarative scoring rule (spec 4.5 and 9): when it fires on a
document it yields a signed delta and the stringified value it looked at. -/
structure ScoringRule where
  rule_id : String
  field : String
  fires : LayerInput → Option (ℚ × String)

/-- Clamp a running layer score into [0, 100], applied once at the end of a
layer as spec 4.5 requires. -/
def clampScore (q : ℚ) : ℚ := max 0 (min 100 q)

/-- Run one ordered layer rule table over a document: fold the signed deltas
from a base score and append one trace entry per rule that fired, in rule
table order; clamp once at the end. -/
def runRules (doc : LayerInput) (base : ℚ) (rules : List ScoringRule) :
    ℚ × List RuleTraceEntry :=
  let folded :=
    rules.foldl
      (fun acc rule =>
        match rule.fires doc with
        | some fired =>
            (acc.1 + fired.1,
              acc.2 ++ [{ rule_id := rule.rule_id
                          field := rule.field
                          value := fired.2
                          detail := "signed delta applied to the running layer score" }])
        | none => acc)
      (base, [])
  (clampScore folded.1, folded.2)

/-- Number of Layer A stocks with a present, parsed P/E value. -/
def peCoverage (doc : LayerInput) : Nat :=
  (doc.valuation.overvalued_stocks.filter
    (fun s => (s.pe_ratio.map (fun r => r.value.isSome)).getD false)).length

/-- Number of Layer A stocks with a resolved ticker. -/
def tickerCoverage (doc : LayerInput) : Nat :=
  (doc.valuation.overvalued_stocks.filter (fun s => s.ticker.isSome)).length

/-- Total risk mention count over all Layer C clusters. -/
def totalRiskCount (doc : LayerInput) : ℤ :=
  (doc.risk.risk_clusters.map (fun c => c.count)).sum

/-- Modelled from the spec: the valuation rule table of the Scoring Engine
(spec 4.5), one rule per recognized field or condition, held as ordered
data (spec 9). -/
def valuationRules : List ScoringRule :=
  [{ rule_id := "A-PE-COVERAGE"
     field := "valuation.pe_ratio"
     fires := fun doc =>
       let n := peCoverage doc
       if n = 0 then none else some ((n : ℚ) * 4, toString n) },
   { rule_id := "A-TICKER-COVERAGE"
     field := "valuation.ticker"
     fires := fun doc =>
       let n := tickerCoverage doc
       if n = 0 then none else some ((n : ℚ) * 2, toString n) }]

/-- Modelled from the spec: the capex rule table of the Scoring Engine
(spec 4.5). -/
def capexRules : List ScoringRule :=
  [{ rule_id := "B-TOTAL-PRESENT"
     field := "capex.capex_total_usd_billion"
     fires := fun doc =>
       match doc.capex.capex_total_usd_billion with
       | some total => some (10, toString total.num)
       | none => none },
   { rule_id := "B-ITEM-COUNT"
     field := "capex.capex_items"
     fires := fun doc =>
       let n := doc.capex.capex_items.length
       if n = 0 then none else some ((n : ℚ) * 3, toString n) }]

/-- Modelled from the spec: the risk rule table of the Scoring Engine
(spec 4.5); more risk mentions push the risk sub-score down. -/
def riskRules : List ScoringRule :=
  [{ rule_id := "C-MENTION-TOTAL"
     field := "risk.risk_clusters"
     fires := fun doc =>
       let n := totalRiskCount doc
       if n = 0 then none else some (-(n : ℚ) * 2, toString n) }]

/-- Modelled from the spec: the Scoring Engine `score(document, validation,
weights)` (spec 4.5) is backend code not under src/, so it is modelled from
the specification words: each layer folds its ordered rule table into a
sub-score clamped to [0, 100] plus trace entries, the composite is the
weighted sum of the three sub-scores, and the full trace is the layer traces
in layer order. A fail validation does not block scoring, so the validation
argument does not gate the computation. -/
def score (doc : LayerInput) (validation : ValidationResult) (w : ScoringWeights) : ScoreResult :=
  let _ := validation
  let v := runRules doc 50 valuationRules
  let c := runRules doc 50 capexRules
  let r := runRules doc 50 riskRules
  { valuation_score := v.1
    capex_score := c.1
    risk_score := r.1
    composite_score := w.valuation * v.1 + w.capex * c.1 + w.risk * r.1
    rule_trace := v.2 ++ c.2 ++ r.2 }

/-- Setting an editable field never changes the rank of a row. -/
theorem setStockField_rank (s : ManualStockEntry) (f : StockField) (v : String) :
    (setStockField s f v).rank = s.rank := by
  cases f <;> rfl

/-- Updating one row preserves the rank sequence of the list. -/
theorem updateStockAt_map_rank (l : List ManualStockEntry) (i : Nat) (f : StockField)
    (v : String) : (updateStockAt l i f v).map (fun s => s.rank) = l.map (fun s => s.rank) := by
  induction l generalizing i with
  | nil => rfl
  | cons s rest ih =>
      cases i with
      | zero => simp [updateStockAt, setStockField_rank]
      | succ n => simp [updateStockAt, ih]

/-- A whole edit sequence preserves the rank sequence. -/
theorem applyStockEdits_map_rank (edits : List (Nat × StockField × String))
    (st : ManualLayersState) :
    (applyStockEdits edits st).valuation.overvalued_stocks.map (fun s => s.rank)
      = st.valuation.overvalued_stocks.map (fun s => s.rank) := by
  induction edits generalizing st with
  | nil => rfl
  | cons e rest ih =>
      rw [applyStockEdits, List.foldl_cons]
      rw [show List.foldl (fun acc e => updateManualStock e.1 e.2.1 e.2.2 acc) _ rest
            = applyStockEdits rest (updateManualStock e.1 e.2.1 e.2.2 st) from rfl]
      rw [ih]
      exact updateStockAt_map_rank _ _ _ _

/-- Building the payload preserves the rank sequence of the manual rows. -/
theorem buildLayerInput_map_rank (m : ManualLayersState) :
    (buildLayerInput m).valuation.overvalued_stocks.map (fun s => s.rank)
      = m.valuation.overvalued_stocks.map (fun s => s.rank) := by
  simp only [buildLayerInput, List.map_map]
  exact List.map_congr_left (fun a _ => rfl)

/-- Claim C2: starting from `createManualLayers` and applying any sequence of
`updateManualStock` edits, `buildLayerInput` produces a Layer A list with
exactly 5 entries whose ranks are 1, 2, 3, 4, 5 in order. -/
theorem manual_layer_a_five_ranked (edits : List (Nat × StockField × String)) :
    (buildLayerInput (applyStockEdits edits createManualLayers)).valuation.overvalued_stocks.length
        = 5
    ∧ (buildLayerInput (applyStockEdits edits createManualLayers)).valuation.overvalued_stocks.map
        (fun s => s.rank) = [1, 2, 3, 4, 5] := by
  have hranks :
      (buildLayerInput (applyStockEdits edits createManualLayers)).valuation.overvalued_stocks.map
          (fun s => s.rank) = [1, 2, 3, 4, 5] := by
    rw [buildLayerInput_map_rank, applyStockEdits_map_rank]
    decide
  refine ⟨?_, hranks⟩
  have hlen := congrArg List.length hranks
  simpa using hlen

/-- Claim C8: the capex aggregate totals of a built document are computed
solely from the totals inputs: they equal the parses of those inputs, they do
not change when the item rows are replaced, and they are attached even when
the produced item list is empty. -/
theorem capex_totals_independent (manual : ManualLayersState)
    (items : List ManualCapexEntry) :
    (buildLayerInput manual).capex.capex_total_usd_billion
        = parseNumber manual.capex.capex_total_usd_billion
    ∧ (buildLayerInput manual).capex.ai_share_percent
        = parseNumber manual.capex.ai_share_percent
    ∧ (buildLayerInput
          { manual with capex := { manual.capex with capex_items := items } }).capex.capex_total_usd_billion
        = (buildLayerInput manual).capex.capex_total_usd_billion
    ∧ (buildLayerInput
          { manual with capex := { manual.capex with capex_items := items } }).capex.ai_share_percent
        = (buildLayerInput manual).capex.ai_share_percent
    ∧ (buildLayerInput
          { manual with capex := { manual.capex with capex_items := [] } }).capex.capex_items = [] :=
  ⟨rfl, rfl, rfl, rfl, rfl⟩

/-- Claim C9: `parseNumber` is `none` exactly when the trimmed input is empty
or does not denote a finite number, and otherwise returns the parsed number;
`parseInteger` is `none` exactly when `parseNumber` is, and otherwise
truncates the parsed number toward zero. -/
theorem parseNumber_parseInteger_spec (s : String) :
    (parseNumber s = none ↔ (jsTrim s = "" ∨ jsNumber (jsTrim s) = none))
    ∧ (∀ q : ℚ, jsTrim s ≠ "" → jsNumber (jsTrim s) = some q → parseNumber s = some q)
    ∧ (parseInteger s = none ↔ parseNumber s = none)
    ∧ (∀ q : ℚ, parseNumber s = some q → parseInteger s = some (jsTrunc q)) := by
  have hdef : parseNumber s = if jsTrim s = "" then none else jsNumber (jsTrim s) := rfl
  refine ⟨?_, ?_, ?_, ?_⟩
  · rcases eq_or_ne (jsTrim s) "" with h | h <;> simp [hdef, h]
  · intro q h hq
    simp [hdef, h, hq]
  · exact Option.map_eq_none'
  · intro q hq
    simp [parseInteger, hq]

/-- Concrete run of claim C9: the fractional input `-2.5` parses and is
truncated toward zero to `-2`. -/
theorem parseNumber_parseInteger_spec_witness : parseInteger "-2.5" = some (-2) := by
  have h := (parseNumber_parseInteger_spec "-2.5").2.2.2 (-(5 / 2))
    (by with_unfolding_all rfl)
  have htr : jsTrunc (-(5 / 2 : ℚ)) = -2 := by with_unfolding_all rfl
  rw [htr] at h
  exact h

/-- Claim C3: scoring is deterministic — two evaluations of `score` on equal
document, validation and weight inputs yield identical results, including an
identical rule-trace order. -/
theorem score_deterministic (d₁ d₂ : LayerInput) (v₁ v₂ : ValidationResult)
    (w₁ w₂ : ScoringWeights) (hd : d₁ = d₂) (hv : v₁ = v₂) (hw : w₁ = w₂) :
    score d₁ v₁ w₁ = score d₂ v₂ w₂
    ∧ (score d₁ v₁ w₁).rule_trace = (score d₂ v₂ w₂).rule_trace := by
  subst hd; subst hv; subst hw
  exact ⟨rfl, rfl⟩

/-- Concrete run of claim C3 on the empty manual document with the default
weights. -/
theorem score_deterministic_witness :
    score (buildLayerInput createManualLayers) { status := ValidationStatus.ok, issues := [] }
        defaultWeights
      = score (buildLayerInput createManualLayers) { status := ValidationStatus.ok, issues := [] }
        defaultWeights :=
  (score_deterministic (buildLayerInput createManualLayers) (buildLayerInput createManualLayers)
    { status := ValidationStatus.ok, issues := [] } { status := ValidationStatus.ok, issues := [] }
    defaultWeights defaultWeights rfl rfl rfl).1

/-- Claim C4 counterexample: the present-but-unparseable input `n/a` does not
produce a `RatioValue` with a null value and the raw snippet — `toRatioValue`
returns the absent field instead, collapsing the two states. -/
theorem toRatioValue_drops_unparseable :
    jsTrim "n/a" ≠ ""
    ∧ parseNumber "n/a" = none
    ∧ toRatioValue "n/a" = none
    ∧ toRatioValue "n/a" ≠ some { value := none, raw := some "n/a" } := by
  refine ⟨by decide, by decide, by decide, by decide⟩

/-- Claim C4 (amended): for every ratio input that is not numerically
parseable — empty or non-numeric text alike — `toRatioValue` produces an
absent field; a parseable input produces a `RatioValue` carrying only the
parsed value, with no raw snippet. The manual-entry path never emits the
null-value-with-raw state. -/
theorem toRatioValue_spec (s : String) :
    (parseNumber s = none → toRatioValue s = none)
    ∧ (∀ q : ℚ, parseNumber s = some q →
        toRatioValue s = some { value := some q, raw := none }) := by
  constructor
  · intro h
    simp [toRatioValue, h]
  · intro q h
    simp [toRatioValue, h]

/-- Concrete run of the amended claim C4 on the parseable input `25`. -/
theorem toRatioValue_spec_witness :
    toRatioValue "25" = some { value := some 25, raw := none } :=
  (toRatioValue_spec "25").2 25 (by with_unfolding_all rfl)

/-- Manual-entry state holding one risk cluster with count text `0` and one
with count text `-2`. -/
def riskCountInput : ManualLayersState :=
  { createManualLayers with
    risk := { risk_clusters := [{ label := "supply", count := "0" },
                                { label := "reg", count := "-2" }] } }

/-- Claim C5 counterexample: `buildLayerInput` records a risk cluster whose
count is 0 and one whose count is negative. -/
theorem risk_cluster_zero_and_negative_recorded :
    (buildLayerInput riskCountInput).risk.risk_clusters
        = [{ label := "supply", count := 0 }, { label := "reg", count := -2 }]
    ∧ ((buildLayerInput riskCountInput).risk.risk_clusters.any
        (fun c => decide (c.count = 0))) = true
    ∧ ((buildLayerInput riskCountInput).risk.risk_clusters.any
        (fun c => decide (c.count < 0))) = true := by
  refine ⟨?_, ?_, ?_⟩ <;> with_unfolding_all decide

/-- Claim C5 (amended): every `RiskCluster` recorded by `buildLayerInput` has
a non-empty label and an integer count that is the successful parse of the
corresponding input row; rows with empty labels or unparseable counts are
dropped, and zero or negative parsed counts are recorded as they are. -/
theorem risk_clusters_from_parsed_rows (m : ManualLayersState) (c : RiskCluster)
    (hc : c ∈ (buildLayerInput m).risk.risk_clusters) :
    c.label ≠ ""
    ∧ ∃ e ∈ m.risk.risk_clusters, jsTrim e.label = c.label
        ∧ parseInteger e.count = some c.count := by
  simp only [buildLayerInput] at hc
  rcases List.mem_map.mp hc with ⟨pr, hpr, rfl⟩
  rcases List.mem_filter.mp hpr with ⟨hmem, hpred⟩
  rcases List.mem_map.mp hmem with ⟨e, he, rfl⟩
  rcases (Bool.and_eq_true _ _).mp hpred with ⟨hlab, hsome⟩
  rcases Option.isSome_iff_exists.mp hsome with ⟨k, hk⟩
  refine ⟨of_decide_eq_true hlab, e, he, rfl, ?_⟩
  have hk2 : parseInteger e.count = some k := hk
  rw [hk2]
  rfl

/-- Manual-entry state holding one well-formed risk cluster row. -/
def riskWitnessInput : ManualLayersState :=
  { createManualLayers with
    risk := { risk_clusters := [{ label := " supply ", count := "3" }] } }

/-- Concrete run of the amended claim C5 on a well-formed risk row. -/
theorem risk_clusters_from_parsed_rows_witness :
    ({ label := "supply", count := 3 } : RiskCluster).label ≠ ""
    ∧ ∃ e ∈ riskWitnessInput.risk.risk_clusters, jsTrim e.label = "supply"
        ∧ parseInteger e.count = some 3 :=
  risk_clusters_from_parsed_rows riskWitnessInput { label := "supply", count := 3 }
    (by with_unfolding_all decide)

/-- Claim C1 evaluation: on a confirmed submission the parse request body
carries the week identifier inside `ticker_overrides` (as a bare string, not
a list of name-ticker pairs) with no week field of its own, the built
override list is discarded, and the manual request body carries the week
identifier as its `layers` value while the built layers are discarded. -/
theorem week_identifier_misplaced_in_request_bodies :
    handleParse "# Weekly Report" "2025-W41" true false
        = some { raw_text := "# Weekly Report"
                 ticker_overrides := some (OverridesArg.str "2025-W41") }
    ∧ handleApplyTickers "# Weekly Report" "2025-W41" [("Alpha", "nvda")] true false
        = some { raw_text := "# Weekly Report"
                 ticker_overrides := some (OverridesArg.str "2025-W41") }
    ∧ handleManualSubmit "# Weekly Report" "2025-W41" createManualLayers true false
        = some { raw_text := "# Weekly Report", layers := LayersArg.str "2025-W41" } :=
  ⟨by with_unfolding_all decide, by with_unfolding_all decide, rfl⟩

/-- Claim C6: every override entry the UI sends has a non-empty trimmed
ticker taken verbatim from the override map (empty and whitespace-only
values are never sent), and every override the resolver applies replaces the
ticker with the override value trimmed and uppercased, while overrides with
empty or whitespace-only values leave the stock unchanged. -/
theorem ticker_overrides_normalized :
    (∀ (raw : List (String × String)) (e : StockTickerOverride),
        e ∈ buildTickerOverrides raw →
        e.ticker ≠ "" ∧ ∃ p ∈ raw, e.name = p.1 ∧ e.ticker = jsTrim p.2)
    ∧ (∀ (doc : LayerInput) (ovs : List StockTickerOverride) (s : OvervaluedStock),
        s ∈ (resolve doc ovs).valuation.overvalued_stocks →
        ∃ s₀ ∈ doc.valuation.overvalued_stocks, s₀.name = s.name
          ∧ (s.ticker = s₀.ticker
            ∨ ∃ o ∈ ovs, o.name = s₀.name ∧ jsTrim o.ticker ≠ ""
                ∧ s.ticker = some (jsToUpper (jsTrim o.ticker)))) := by
  constructor
  · intro raw e he
    simp only [buildTickerOverrides] at he
    rcases List.mem_filter.mp he with ⟨hmem, hlen⟩
    rcases List.mem_map.mp hmem with ⟨p, hp, rfl⟩
    refine ⟨?_, p, hp, rfl, rfl⟩
    intro hempty
    have hlen2 : 0 < (jsTrim p.2).length := of_decide_eq_true hlen
    have hempty2 : jsTrim p.2 = "" := hempty
    rw [hempty2] at hlen2
    exact absurd hlen2 (by decide)
  · intro doc ovs s hs
    simp only [resolve] at hs
    rcases List.mem_map.mp hs with ⟨s₀, hs₀, rfl⟩
    refine ⟨s₀, hs₀, ?_, ?_⟩
    · cases hfind : ovs.find? (fun o => o.name == s₀.name) with
      | none => simp [hfind]
      | some o =>
          by_cases ht : jsTrim o.ticker ≠ "" <;> simp [hfind, ht]
    · cases hfind : ovs.find? (fun o => o.name == s₀.name) with
      | none => exact Or.inl (by simp [hfind])
      | some o =>
          by_cases ht : jsTrim o.ticker ≠ ""
          · refine Or.inr ⟨o, List.mem_of_find?_eq_some hfind, ?_, ht, by simp [hfind, ht]⟩
            have hbeq := List.find?_some hfind
            simp only [beq_iff_eq] at hbeq
            exact hbeq
          · exact Or.inl (by simp [hfind, ht])

/-- A one-stock document used to exercise the resolver. -/
def resolveSampleDoc : LayerInput :=
  { valuation :=
      { overvalued_stocks :=
          [{ rank := 1, name := "Alpha", ticker := none,
             pe_ratio := none, pb_ratio := none, pcf_ratio := none }] }
    capex := { capex_items := [], capex_total_usd_billion := none, ai_share_percent := none }
    risk := { risk_clusters := [] }
    market_context := { week_label := none, index_moves := [] } }

/-- Concrete run of claim C6: the whitespace-only override for Beta is never
sent, the Alpha override is sent trimmed, and the applied ticker is the
trimmed uppercased override value. -/
theorem ticker_overrides_normalized_witness :
    (({ name := "Alpha", ticker := "nvda" } : StockTickerOverride).ticker ≠ ""
      ∧ ∃ p ∈ [("Alpha", " nvda "), ("Beta", "   ")],
          ({ name := "Alpha", ticker := "nvda" } : StockTickerOverride).name = p.1
            ∧ ({ name := "Alpha", ticker := "nvda" } : StockTickerOverride).ticker = jsTrim p.2)
    ∧ ∃ s₀ ∈ resolveSampleDoc.valuation.overvalued_stocks, s₀.name = "Alpha"
        ∧ ((some "NVDA" : Option String) = s₀.ticker
          ∨ ∃ o ∈ [({ name := "Alpha", ticker := "nvda" } : StockTickerOverride)],
              o.name = s₀.name ∧ jsTrim o.ticker ≠ ""
                ∧ (some "NVDA" : Option String) = some (jsToUpper (jsTrim o.ticker))) := by
  constructor
  · exact ticker_overrides_normalized.1 [("Alpha", " nvda "), ("Beta", "   ")]
      { name := "Alpha", ticker := "nvda" } (by with_unfolding_all decide)
  · have h := ticker_overrides_normalized.2 resolveSampleDoc
      [{ name := "Alpha", ticker := "nvda" }]
      { rank := 1, name := "Alpha", ticker := some "NVDA",
        pe_ratio := none, pb_ratio := none, pcf_ratio := none }
      (by with_unfolding_all decide)
    exact h

/-- A fully populated successful parse response used as a witness. -/
def sampleParseResult : ParseResult :=
  { raw_text := "# Weekly Report"
    cleaned_text := "Weekly Report"
    layers := buildLayerInput createManualLayers
    provider_snapshots := []
    scores :=
      score (buildLayerInput createManualLayers)
        { status := ValidationStatus.ok, issues := [] } defaultWeights
    evidence := []
    validation := { status := ValidationStatus.ok, issues := [] }
    provider_job_id := none
    provider_job_status := none }

/-- A successful HTTP exchange carrying `sampleParseResult`. -/
def sampleOkResponse : ParseHttpResponse :=
  { ok := true
    status := 200
    contentType := "application/json"
    jsonData := Js.jnull
    textBody := ""
    parsedBody := sampleParseResult }

/-- Claim C7: every successful outcome of `parseReport` or
`submitManualReport` delivers the extracted layers, the validation result and
the score result with its rule trace together — the `ParseResult` shape makes
all three present in the same response. -/
theorem parse_result_delivers_together (resp : ParseHttpResponse) (r : ParseResult)
    (hok : parseReportOutcome resp = Except.ok r
      ∨ submitManualReportOutcome resp = Except.ok r) :
    ∃ (layers : LayerInput) (validation : ValidationResult) (scores : ScoreResult),
      r.layers = layers ∧ r.validation = validation ∧ r.scores = scores
        ∧ scores.rule_trace = r.scores.rule_trace :=
  ⟨r.layers, r.validation, r.scores, rfl, rfl, rfl, rfl⟩

/-- Concrete run of claim C7 on a successful exchange. -/
theorem parse_result_delivers_together_witness :
    ∃ (layers : LayerInput) (validation : ValidationResult) (scores : ScoreResult),
      sampleParseResult.layers = layers ∧ sampleParseResult.validation = validation
        ∧ sampleParseResult.scores = scores
        ∧ scores.rule_trace = sampleParseResult.scores.rule_trace :=
  parse_result_delivers_together sampleOkResponse sampleParseResult (Or.inl rfl)

/-- Claim C10: `toApiError` always carries the HTTP status of the response,
and a non-JSON response with an empty body falls back to the non-empty
default message. -/
theorem toApiError_status_and_default (status : Nat) (contentType : String)
    (jsonData : Js) (textBody : String) :
    (toApiError status contentType jsonData textBody).status = status
    ∧ (jsIncludes contentType "application/json" = false → textBody = "" →
        (toApiError status contentType jsonData textBody).message = "Request failed.") := by
  constructor
  · unfold toApiError
    split <;> rfl
  · intro hct hbody
    simp [toApiError, hct, hbody]

/-- Concrete run of claim C10 on a plain-text 503 response with empty body. -/
theorem toApiError_status_and_default_witness :
    (toApiError 503 "text/plain" Js.jnull "").status = 503
    ∧ (toApiError 503 "text/plain" Js.jnull "").message = "Request failed." :=
  ⟨(toApiError_status_and_default 503 "text/plain" Js.jnull "").1,
    (toApiError_status_and_default 503 "text/plain" Js.jnull "").2 (by decide) rfl⟩
